import Mathlib

/-!
Verification of the job-orchestration engine of this repository
(`src/job/job_manager.py` and `src/job/job_backend.py`).

The Python code is shallowly embedded as executable Lean definitions:
  * the data model (`JobState`, `RetryPolicy`, `JobSpec`, `Job`) mirrors the
    dataclasses of `job_backend.py`;
  * `runAttempts` / `executeWithRetries` embed the retry loop
    `JobManager._execute_with_retries` (job_manager.py lines 91-138) as a
    function producing the trace of emitted events, state changes, sleeps and
    snapshot writes; environment inputs (the per-attempt terminal state the
    backend drives the job to, wall-clock readings, the random jitter byte)
    are explicit parameters;
  * `submit` / `cancel` embed `JobManager.submit` (lines 54-62) and
    `JobManager.cancel` (lines 71-75), threading the mutated manager state
    and modelling Python exceptions with an explicit error result, so that
    mutations performed before a raise are preserved exactly as in Python;
  * `waitAndFinalize` / `localCancel` embed the subprocess backend's waiter
    and cancel paths (job_backend.py lines 128-150 and 155-167), returning
    the list of process-control actions performed;
  * a small-step transition system (`Step`, `Reach`) embeds the interleaving
    of `_run_loop` dispatch, the retry loop and cancellation around the
    admission semaphore.
Seconds are modelled as rationals; wall-clock reads and randomness are
explicit function parameters.
-/

/-- Job states, from `class JobState(enum.Enum)` in job_backend.py lines 19-24. -/
inductive JobState
| PENDING
| RUNNING
| SUCCEEDED
| FAILED
| CANCELLED
deriving DecidableEq, Repr

/-- Retry policy, from `RetryPolicy` in job_backend.py lines 26-30. -/
structure RetryPolicy where
  max_retries : ℕ := 0
  backoff_seconds : ℚ := 2
  jitter_seconds : ℚ := 1/2
deriving DecidableEq

/-- A command: either a shell-like string or an argument vector
(`cmd: Optional[Union[str, List[str]]]`). -/
inductive Cmd
| line (s : String)
| argv (l : List String)
deriving DecidableEq

/-- Work description, from `JobSpec` in job_backend.py lines 33-55.
The Python callable is represented by an opaque reference name and its
`Any`-typed args/kwargs payloads by strings; no claim depends on calling it. -/
structure JobSpec where
  cmd : Option Cmd := none
  callable : Option String := none
  args : List String := []
  kwargs : List (String × String) := []
  env : Option (List (String × String)) := none
  cwd : Option String := none
  timeout_seconds : Option ℚ := none
  runtime_limit_seconds : Option ℚ := none
  retry : RetryPolicy := {}
  name : Option String := none
  tags : List (String × String) := []
deriving DecidableEq

/-- Mutable execution record, from `Job` in job_backend.py lines 57-70. -/
structure Job where
  job_id : String
  spec : JobSpec
  state : JobState := JobState.PENDING
  attempts : ℕ := 0
  created_at : ℚ := 0
  started_at : Option ℚ := none
  ended_at : Option ℚ := none
  return_code : Option Int := none
  error : Option String := none
  pid : Option ℕ := none
  stdout_path : Option String := none
  stderr_path : Option String := none
deriving DecidableEq

/-- Backoff computation, from job_manager.py lines 132-134:
`backoff = (job.spec.retry.backoff_seconds ** attempt_idx)` and, when
`jitter_seconds` is truthy (nonzero), `backoff += (os.urandom(1)[0] / 255.0) *
job.spec.retry.jitter_seconds`.  `b` is the random byte drawn from
`os.urandom(1)[0]`. -/
def computeBackoff (p : RetryPolicy) (attempt_idx : ℕ) (b : Fin 256) : ℚ :=
  let backoff := p.backoff_seconds ^ attempt_idx
  if p.jitter_seconds ≠ 0 then
    backoff + ((b.val : ℚ) / 255) * p.jitter_seconds
  else backoff

/-- The terminal state a backend drives one attempt to (what the poll loop at
job_manager.py lines 105-109 eventually observes).  `failed err` carries the
error text the backend recorded into `job.error`, if any (a plain nonzero
exit leaves `job.error` untouched). -/
inductive AttemptOutcome
| succeeded
| failed (err : Option String)
| cancelled
deriving DecidableEq

def AttemptOutcome.toState : AttemptOutcome → JobState
| AttemptOutcome.succeeded => JobState.SUCCEEDED
| AttemptOutcome.failed _ => JobState.FAILED
| AttemptOutcome.cancelled => JobState.CANCELLED

/-- Apply one attempt's terminal outcome to the job record, as the backend's
waiter does (job_backend.py lines 128-146 / 185-217). -/
def applyOutcome (j : Job) : AttemptOutcome → Job
| AttemptOutcome.succeeded => { j with state := JobState.SUCCEEDED }
| AttemptOutcome.failed e =>
    { j with state := JobState.FAILED,
             error := match e with | some s => some s | none => j.error }
| AttemptOutcome.cancelled => { j with state := JobState.CANCELLED }

/-- Observable happenings of the Manager: lifecycle events emitted through
`_emit`, job state changes, snapshot writes (`_persist` invocations) and
backoff sleeps. -/
inductive Ev
| onSubmit
| onStart
| onFinish
| onRetry
| onCancel
| stChange (s : JobState)
| persistEv
| sleepFor (q : ℚ)
deriving DecidableEq

/-- The runtime-limit test of job_manager.py lines 124-125:
`time.time() - start_wall >= job.spec.runtime_limit_seconds`, with the
wall-clock reading after attempt `i` supplied by `elapsedAfter i`. -/
def overLimit (spec : JobSpec) (elapsedAfter : ℕ → ℚ) (i : ℕ) : Bool :=
  match spec.runtime_limit_seconds with
  | some lim => decide (lim ≤ elapsedAfter i)
  | none => false

/-- The `while attempts_left > 0` loop of `JobManager._execute_with_retries`
(job_manager.py lines 96-136).  Arguments: per-attempt outcomes `oc`,
wall-clock readings `elapsedAfter`, jitter bytes `jbyte`; then
`attempts_left`, `attempt_idx` and the job record.  Returns the trace of
events produced by this activation and the final job record.  Every
iteration emits `on_start` (line 99), the backend sets RUNNING (line 124 /
186), and the poll loop ends at the attempt's terminal state; then the four
exit/continue branches of lines 111-136 follow. -/
def runAttempts (spec : JobSpec) (oc : ℕ → AttemptOutcome) (elapsedAfter : ℕ → ℚ)
    (jbyte : ℕ → Fin 256) : ℕ → ℕ → Job → List Ev × Job
| 0, _, j => ([], j)
| al + 1, idx, j =>
    let idx1 := idx + 1
    let o := oc idx1
    let j2 := applyOutcome { j with attempts := idx1, state := JobState.RUNNING } o
    let pre : List Ev :=
      [Ev.onStart, Ev.stChange JobState.RUNNING, Ev.stChange o.toState]
    if j2.state = JobState.SUCCEEDED then
      (pre ++ [Ev.onFinish, Ev.persistEv], j2)
    else if al = 0 then
      (pre ++ [Ev.onFinish, Ev.persistEv], j2)
    else if overLimit spec elapsedAfter idx1 then
      (pre ++ [Ev.onFinish, Ev.persistEv],
        { j2 with error := some ((j2.error.getD "") ++ "\nRuntime limit exceeded") })
    else
      let b := computeBackoff spec.retry idx1 (jbyte idx1)
      let rest := runAttempts spec oc elapsedAfter jbyte al idx1 j2
      (pre ++ [Ev.onRetry, Ev.sleepFor b] ++ rest.1, rest.2)

/-- `JobManager._execute_with_retries` entry (job_manager.py lines 93-95):
`attempts_left = 1 + job.spec.retry.max_retries`, `attempt_idx = 0`. -/
def executeWithRetries (spec : JobSpec) (oc : ℕ → AttemptOutcome)
    (elapsedAfter : ℕ → ℚ) (jbyte : ℕ → Fin 256) (j : Job) : List Ev × Job :=
  runAttempts spec oc elapsedAfter jbyte (1 + spec.retry.max_retries) 0 j

def isOnStart : Ev → Bool
| Ev.onStart => true
| _ => false

def isOnRetry : Ev → Bool
| Ev.onRetry => true
| _ => false

def isPersist : Ev → Bool
| Ev.persistEv => true
| _ => false

def isStCh : Ev → Bool
| Ev.stChange _ => true
| _ => false

def countEv (p : Ev → Bool) (tr : List Ev) : ℕ := tr.countP p

/-!  Manager-level model: `JobManager.submit`, `JobManager.cancel`,
`JobManager._emit`, `JobManager._persist` and one `_run_loop` iteration. -/

/-- Exceptions that can propagate out of manager operations. -/
inductive Err
| handlerFault (msg : String)
| persistFailed
| keyError
deriving DecidableEq

/-- What one registered handler does when invoked by `_emit`: it either
returns (possibly after awaiting) or raises. -/
inductive HandlerRes
| ok
| fault (msg : String)
deriving DecidableEq

/-- `JobManager._emit` (job_manager.py lines 141-146): handlers are invoked
sequentially in registration order and awaited; there is no try/except, so
the first raising handler propagates and the remaining handlers never run. -/
def emitRun : List HandlerRes → Except Err Unit
| [] => Except.ok ()
| HandlerRes.ok :: hs => emitRun hs
| HandlerRes.fault m :: _ => Except.error (Err.handlerFault m)

/-- `JobManager._persist` (job_manager.py lines 154-161): returns immediately
when no `persist_state_path` is configured; otherwise opens a `.tmp` file,
dumps the full job table and atomically renames.  There is no try/except, so
a failing write (`writeOk = false`) raises.  The snapshot content is modelled
separately by `snapshotOf`. -/
def persistFn (path : Option String) (writeOk : Bool) : Except Err Unit :=
  match path with
  | none => Except.ok ()
  | some _ => if writeOk then Except.ok () else Except.error Err.persistFailed

def isOkE {α : Type} : Except Err α → Bool
| Except.ok _ => true
| Except.error _ => false

/-- Manager state: the job table `self._jobs` (an insertion-ordered mapping),
the FIFO pending queue `self._queue`, and the configured snapshot path. -/
structure MState where
  jobs : List (String × Job) := []
  queue : List String := []
  persistPath : Option String := none
deriving DecidableEq

/-- Dictionary lookup `self._jobs.get(job_id)` / `self._jobs[job_id]`. -/
def findJob (jobs : List (String × Job)) (jid : String) : Option Job :=
  (jobs.find? (fun p => p.1 == jid)).map (fun p => p.2)

/-- In-place mutation of the job object stored under `jid` (Python mutates
the shared object; here the table entry is replaced). -/
def updateJob (jobs : List (String × Job)) (jid : String) (j : Job) :
    List (String × Job) :=
  jobs.map (fun p => if p.1 == jid then (p.1, j) else p)

/-- Python truthiness used in `spec.name or ...`: `None` and `""` are falsy. -/
def pyOr (a : Option String) (b : String) : String :=
  match a with
  | some s => if s = "" then b else s
  | none => b

/-- `pathlib.Path(str(base)).name`: the last nonempty path component
(Python raises no error here; trailing separators are ignored). -/
def pathName (s : String) : String :=
  ((s.splitOn "/").filter (fun c => c ≠ "")).getLastD ""

/-- The base token of `_new_job_id` (job_manager.py line 150):
`spec.name or (spec.cmd[0] if isinstance(spec.cmd, list) else (spec.cmd or "job"))`.
Python would raise IndexError on an empty argv list; that input is modelled
as the empty string and exercised by no claim. -/
def jobIdBase (spec : JobSpec) : String :=
  pyOr spec.name
    (match spec.cmd with
     | some (Cmd.argv l) => l.headD ""
     | some (Cmd.line s) => if s = "" then "job" else s
     | none => "job")

/-- `JobManager._new_job_id` (job_manager.py lines 148-152); `ts` is the
millisecond timestamp, `pid` the process id and `nJobs` the current size of
the job table. -/
def newJobId (spec : JobSpec) (ts pid nJobs : ℕ) : String :=
  ((pathName (jobIdBase spec)).replace " " "_")
    ++ "-" ++ toString ts ++ "-" ++ toString pid ++ "-" ++ toString (nJobs + 1)

/-- A freshly constructed `Job(job_id=job_id, spec=spec)` with the dataclass
defaults of job_backend.py lines 57-70; `created_at` is the `time.time()`
reading at construction. -/
def initJob (jid : String) (spec : JobSpec) (now : ℚ) : Job :=
  { job_id := jid, spec := spec, created_at := now }

/-- `JobManager.submit` (job_manager.py lines 54-62), in source order:
create the id and the Job, put it in the table, emit `on_submit`, enqueue the
id, ensure the runner task, persist, return the id.  The handler results for
the `on_submit` channel are `hs`; `writeOk` says whether the snapshot write
would succeed.  A raise from `_emit` or `_persist` propagates, preserving the
mutations already performed — exactly as in Python.  (`_ensure_runner` only
spawns the dispatcher task and touches no modelled state.) -/
def submit (m : MState) (spec : JobSpec) (ts pid : ℕ) (now : ℚ)
    (hs : List HandlerRes) (writeOk : Bool) :
    MState × List Ev × Except Err String :=
  let jid := newJobId spec ts pid m.jobs.length
  let job := initJob jid spec now
  let m1 : MState := { m with jobs := m.jobs ++ [(jid, job)] }
  match emitRun hs with
  | Except.error e => (m1, [], Except.error e)
  | Except.ok _ =>
    let m2 : MState := { m1 with queue := m1.queue ++ [jid] }
    match persistFn m2.persistPath writeOk with
    | Except.error e => (m2, [Ev.onSubmit], Except.error e)
    | Except.ok _ => (m2, [Ev.onSubmit], Except.ok jid)

/-- What both backends' `cancel` do to the job record: unconditionally set
CANCELLED and stamp `ended_at` (job_backend.py lines 166-167 and 231-232).
Process/task teardown actions are modelled separately by `localCancel`. -/
def backendCancelJob (j : Job) (now : ℚ) : Job :=
  { j with state := JobState.CANCELLED, ended_at := some now }

/-- `JobManager.cancel` (job_manager.py lines 71-75): `self._jobs[job_id]`
(KeyError when absent), await the backend's cancel, emit `on_cancel`,
persist.  The pending queue is not touched. -/
def cancel (m : MState) (jid : String) (now : ℚ)
    (hs : List HandlerRes) (writeOk : Bool) :
    MState × List Ev × Except Err Unit :=
  match findJob m.jobs jid with
  | none => (m, [], Except.error Err.keyError)
  | some job =>
    let m1 : MState := { m with jobs := updateJob m.jobs jid (backendCancelJob job now) }
    match emitRun hs with
    | Except.error e => (m1, [], Except.error e)
    | Except.ok _ =>
      match persistFn m1.persistPath writeOk with
      | Except.error e => (m1, [Ev.onCancel], Except.error e)
      | Except.ok _ => (m1, [Ev.onCancel], Except.ok ())

/-- One iteration of `JobManager._run_loop` (job_manager.py lines 82-89):
pop the next id from the queue; if the job is still in the table, acquire an
admission slot and start `_execute_with_retries` for it (the returned id).
A popped id with no table entry is skipped (`continue`). -/
def runLoopIter (m : MState) : MState × Option String :=
  match m.queue with
  | [] => (m, none)
  | jid :: rest =>
    let m1 : MState := { m with queue := rest }
    match findJob m1.jobs jid with
    | none => (m1, none)
    | some _ => (m1, some jid)

/-!  Subprocess backend model: the waiter's timeout path and `cancel`
(job_backend.py lines 128-150 and 155-167). -/

/-- Process-control actions performed on the child process. -/
inductive ProcAction
| sendTerm
| waitGrace (seconds : ℚ)
| kill
deriving DecidableEq

/-- How one `proc.wait()` race against the per-attempt timeout ends. -/
inductive WaitResult
| exited (rc : Int)
| timedOut
deriving DecidableEq

/-- The error text recorded on a timeout,
`f"Attempt timed out after {job.spec.timeout_seconds}s"` (the numeral
formatting of the source f-string is not reproduced beyond some/None). -/
def timeoutMsg (t : Option ℚ) : String :=
  "Attempt timed out after "
    ++ (match t with | some q => toString q | none => "None") ++ "s"

/-- `LocalSubprocessBackend.submit`'s detached `_wait_and_finalize`
(job_backend.py lines 128-146): on a normal exit, record the return code and
set SUCCEEDED iff it is 0; on `asyncio.TimeoutError`, record the timeout
error, mark FAILED and `proc.kill()` the child — with no preceding
termination signal and no grace period.  The returned list is the sequence
of process-control actions performed. -/
def waitAndFinalize (spec : JobSpec) (j : Job) (now : ℚ) :
    WaitResult → Job × List ProcAction
| WaitResult.exited rc =>
    ({ j with return_code := some rc, ended_at := some now,
              state := if rc = 0 then JobState.SUCCEEDED else JobState.FAILED },
     [])
| WaitResult.timedOut =>
    ({ j with error := some (timeoutMsg spec.timeout_seconds),
              state := JobState.FAILED, ended_at := some now },
     [ProcAction.kill])

/-- `LocalSubprocessBackend.cancel` (job_backend.py lines 155-167):
when a live process is tracked for the job, send SIGTERM, wait up to the
5-second grace period, and `kill()` only if it did not exit in time; in every
case set the job CANCELLED.  `tracked`: the job has a live entry in
`self._procs`; `exitsWithinGrace`: the child exits inside the grace wait. -/
def localCancel (tracked exitsWithinGrace : Bool) (j : Job) (now : ℚ) :
    Job × List ProcAction :=
  let actions :=
    if tracked then
      if exitsWithinGrace then [ProcAction.sendTerm, ProcAction.waitGrace 5]
      else [ProcAction.sendTerm, ProcAction.waitGrace 5, ProcAction.kill]
    else []
  ({ j with state := JobState.CANCELLED, ended_at := some now }, actions)

/-!  Snapshot model: `Job.to_dict` (job_backend.py lines 72-75) serializes
every field with the state rendered as its symbolic name; `_persist` dumps
`{jid: j.to_dict() ...}`.  Reloading parses the state name back. -/

/-- The serialized form of one job that `_persist` writes (the fields the
claims inspect; state as its symbolic `.value` string). -/
structure JobDict where
  state : String
  attempts : ℕ
  return_code : Option Int
  error : Option String
deriving DecidableEq

/-- `JobState.value` strings of job_backend.py lines 20-24. -/
def stateName : JobState → String
| JobState.PENDING => "PENDING"
| JobState.RUNNING => "RUNNING"
| JobState.SUCCEEDED => "SUCCEEDED"
| JobState.FAILED => "FAILED"
| JobState.CANCELLED => "CANCELLED"

/-- Parsing a serialized state name back, as a loader of the snapshot would. -/
def stateOfName (s : String) : Option JobState :=
  if s = "PENDING" then some JobState.PENDING
  else if s = "RUNNING" then some JobState.RUNNING
  else if s = "SUCCEEDED" then some JobState.SUCCEEDED
  else if s = "FAILED" then some JobState.FAILED
  else if s = "CANCELLED" then some JobState.CANCELLED
  else none

/-- `Job.to_dict`. -/
def jobToDict (j : Job) : JobDict :=
  { state := stateName j.state, attempts := j.attempts,
    return_code := j.return_code, error := j.error }

/-- The snapshot document `{jid: j.to_dict() for jid, j in self._jobs.items()}`. -/
def snapshotOf (tbl : List (String × Job)) : List (String × JobDict) :=
  tbl.map (fun p => (p.1, jobToDict p.2))

/-!  Admission-control transition system.  It embeds the interleaving of
`_run_loop` (job_manager.py lines 82-89: semaphore acquire before the retry
task starts), `_execute_with_retries` (RUNNING is set only by a backend
`submit` called from the slot-holding retry task; the slot is released in
the `finally` at line 138, after the loop returns at a terminal outcome) and
`JobManager.cancel` (which may set CANCELLED in any phase). -/

/-- Where a job is in its lifecycle relative to its retry task. -/
inductive Phase
| queued
| dispatched
| running
| attemptDone
| backoff
| finished
deriving DecidableEq

/-- Phases during which the job's retry task holds an admission slot:
from semaphore acquire (dispatch) until the `finally` release. -/
def holdsSlot : Phase → Bool
| Phase.queued => false
| Phase.finished => false
| _ => true

/-- One tracked job: its visible state and its scheduling phase. -/
structure JR where
  st : JobState
  ph : Phase
deriving DecidableEq

/-- System state: the free semaphore count and the tracked jobs. -/
structure Sys where
  sem : ℕ
  jobs : List JR
deriving DecidableEq

/-- Interleaved steps of the Manager.  Job mutation is written positionally
as `l ++ j :: r` to `l ++ j2 :: r`. -/
inductive Step : Sys → Sys → Prop
| submitJob (sem : ℕ) (jobs : List JR) :
    Step ⟨sem, jobs⟩ ⟨sem, jobs ++ [⟨JobState.PENDING, Phase.queued⟩]⟩
| dispatch (sem : ℕ) (l r : List JR) (j : JR) :
    j.ph = Phase.queued →
    Step ⟨sem + 1, l ++ j :: r⟩ ⟨sem, l ++ ⟨j.st, Phase.dispatched⟩ :: r⟩
| startAttempt (sem : ℕ) (l r : List JR) (j : JR) :
    (j.ph = Phase.dispatched ∨ j.ph = Phase.backoff) →
    Step ⟨sem, l ++ j :: r⟩ ⟨sem, l ++ ⟨JobState.RUNNING, Phase.running⟩ :: r⟩
| endAttempt (sem : ℕ) (l r : List JR) (j : JR) (o : AttemptOutcome) :
    j.ph = Phase.running →
    Step ⟨sem, l ++ j :: r⟩ ⟨sem, l ++ ⟨o.toState, Phase.attemptDone⟩ :: r⟩
| retryJob (sem : ℕ) (l r : List JR) (j : JR) :
    j.ph = Phase.attemptDone → j.st ≠ JobState.SUCCEEDED →
    Step ⟨sem, l ++ j :: r⟩ ⟨sem, l ++ ⟨j.st, Phase.backoff⟩ :: r⟩
| finishJob (sem : ℕ) (l r : List JR) (j : JR) :
    j.ph = Phase.attemptDone →
    Step ⟨sem, l ++ j :: r⟩ ⟨sem + 1, l ++ ⟨j.st, Phase.finished⟩ :: r⟩
| cancelJob (sem : ℕ) (l r : List JR) (j : JR) :
    Step ⟨sem, l ++ j :: r⟩ ⟨sem, l ++ ⟨JobState.CANCELLED, j.ph⟩ :: r⟩

/-- The Manager starts with `asyncio.Semaphore(max_concurrent)` free slots
and an empty job table. -/
def initSys (K : ℕ) : Sys := ⟨K, []⟩

/-- States reachable from the initial state with capacity `K`. -/
inductive Reach (K : ℕ) : Sys → Prop
| refl : Reach K (initSys K)
| tail {s s2 : Sys} : Reach K s → Step s s2 → Reach K s2

def slotCount (l : List JR) : ℕ := l.countP (fun j => holdsSlot j.ph)

def runningCount (l : List JR) : ℕ :=
  l.countP (fun j => decide (j.st = JobState.RUNNING))

/-!  Concrete fixtures used by counterexamples and witnesses. -/

/-- Wall-clock readings: a run that takes no time. -/
def zr : ℕ → ℚ := fun _ => 0

/-- Jitter bytes: `os.urandom` always returning 0. -/
def zb : ℕ → Fin 256 := fun _ => 0

/-- A backend whose every attempt ends FAILED with no error text recorded. -/
def ocFail : ℕ → AttemptOutcome := fun _ => AttemptOutcome.failed none

/-- A run whose first attempt is cancelled mid-flight and whose later
attempts fail. -/
def ocCancelThenFail : ℕ → AttemptOutcome :=
  fun i => if i = 1 then AttemptOutcome.cancelled else AttemptOutcome.failed none

/-- A spec with every field at its dataclass default — in particular neither
`cmd` nor `callable` is set. -/
def spec0 : JobSpec := {}

def specMR2 : JobSpec := { retry := { max_retries := 2 } }

/-- A spec with both `cmd` and `callable` set. -/
def specBoth : JobSpec :=
  { cmd := some (Cmd.line "echo hi"), callable := some "train_step" }

def specC1 : JobSpec :=
  { retry := { max_retries := 1, backoff_seconds := 2, jitter_seconds := 0 } }

def specT : JobSpec := { timeout_seconds := some 3 }

def pJit : RetryPolicy :=
  { max_retries := 1, backoff_seconds := 2, jitter_seconds := 1 }

/-- The job `submit` would create for `spec` at timestamp 0 in process 0. -/
def jobFix (spec : JobSpec) : Job := initJob (newJobId spec 0 0 0) spec 0

def m0 : MState := {}

def mP : MState := { persistPath := some "state.json" }

def jobJ : Job := initJob "j" spec0 0

def mPJ : MState := { jobs := [("j", jobJ)], persistPath := some "state.json" }

/-- Modelled from the spec (claim C1 wording, stated for refutation): after a
CANCELLED state change appears in a run's trace, the job never re-enters
RUNNING. -/
def cancelBypassesRetries (tr : List Ev) : Prop :=
  ∀ i k, i < k → tr.getD i Ev.onSubmit = Ev.stChange JobState.CANCELLED →
    tr.getD k Ev.onSubmit ≠ Ev.stChange JobState.RUNNING

/-- Modelled from the spec (claim C6 wording, stated for refutation): every
state change in a trace is followed by a `_persist` invocation before the
next state change. -/
def persistsAfterEveryTransition (tr : List Ev) : Prop :=
  ∀ i k, i < k → isStCh (tr.getD i Ev.onSubmit) = true →
    isStCh (tr.getD k Ev.onSubmit) = true →
    ∃ n, i < n ∧ n < k ∧ tr.getD n Ev.onSubmit = Ev.persistEv

/-- Inductive invariant: the free slots plus the held slots always equal the
capacity, and a RUNNING job is always inside an attempt of its slot-holding
retry task. -/
def SysInv (K : ℕ) (s : Sys) : Prop :=
  s.sem + slotCount s.jobs = K ∧
  ∀ j ∈ s.jobs, j.st = JobState.RUNNING → j.ph = Phase.running

theorem slotCount_mid (l r : List JR) (j : JR) :
    slotCount (l ++ j :: r) =
      slotCount l + ((if holdsSlot j.ph then 1 else 0) + slotCount r) := by
  simp [slotCount, List.countP_append, List.countP_cons]
  cases h : holdsSlot j.ph
  · simp [h]
    try omega
  · simp [h]
    try omega

theorem sysInv_init (K : ℕ) : SysInv K (initSys K) := by
  refine ⟨by simp [initSys, slotCount], ?_⟩
  intro j hj
  simp [initSys] at hj

theorem sysInv_step {K : ℕ} {s s2 : Sys} (h : SysInv K s) (hs : Step s s2) :
    SysInv K s2 := by
  obtain ⟨hsem, hrun⟩ := h
  cases hs with
  | submitJob sem jobs =>
    refine ⟨?_, ?_⟩
    · simpa [slotCount, List.countP_append, holdsSlot] using hsem
    · intro j hj hst
      rcases List.mem_append.mp hj with hj1 | hj1
      · exact hrun j hj1 hst
      · simp at hj1
        rw [hj1] at hst
        cases hst
  | dispatch sem l r j hq =>
    refine ⟨?_, ?_⟩
    · rw [slotCount_mid] at hsem ⊢
      rw [hq] at hsem
      simp [holdsSlot] at hsem ⊢
      omega
    · intro x hx hst
      rcases List.mem_append.mp hx with hx1 | hx1
      · exact hrun x (List.mem_append.mpr (Or.inl hx1)) hst
      · rcases List.mem_cons.mp hx1 with hx2 | hx2
        · rw [hx2] at hst
          have := hrun j (List.mem_append.mpr (Or.inr (List.mem_cons_self _ _))) hst
          rw [hq] at this
          cases this
        · exact hrun x (List.mem_append.mpr (Or.inr (List.mem_cons_of_mem _ hx2))) hst
  | startAttempt sem l r j hp =>
    refine ⟨?_, ?_⟩
    · rw [slotCount_mid] at hsem ⊢
      rcases hp with hp | hp <;> rw [hp] at hsem <;>
        simpa [holdsSlot] using hsem
    · intro x hx hst
      rcases List.mem_append.mp hx with hx1 | hx1
      · exact hrun x (List.mem_append.mpr (Or.inl hx1)) hst
      · rcases List.mem_cons.mp hx1 with hx2 | hx2
        · rw [hx2]
        · exact hrun x (List.mem_append.mpr (Or.inr (List.mem_cons_of_mem _ hx2))) hst
  | endAttempt sem l r j o hp =>
    refine ⟨?_, ?_⟩
    · rw [slotCount_mid] at hsem ⊢
      rw [hp] at hsem
      simpa [holdsSlot] using hsem
    · intro x hx hst
      rcases List.mem_append.mp hx with hx1 | hx1
      · exact hrun x (List.mem_append.mpr (Or.inl hx1)) hst
      · rcases List.mem_cons.mp hx1 with hx2 | hx2
        · rw [hx2] at hst
          cases o <;> simp [AttemptOutcome.toState] at hst
        · exact hrun x (List.mem_append.mpr (Or.inr (List.mem_cons_of_mem _ hx2))) hst
  | retryJob sem l r j hp hns =>
    refine ⟨?_, ?_⟩
    · rw [slotCount_mid] at hsem ⊢
      rw [hp] at hsem
      simpa [holdsSlot] using hsem
    · intro x hx hst
      rcases List.mem_append.mp hx with hx1 | hx1
      · exact hrun x (List.mem_append.mpr (Or.inl hx1)) hst
      · rcases List.mem_cons.mp hx1 with hx2 | hx2
        · rw [hx2] at hst
          have := hrun j (List.mem_append.mpr (Or.inr (List.mem_cons_self _ _))) hst
          rw [hp] at this
          cases this
        · exact hrun x (List.mem_append.mpr (Or.inr (List.mem_cons_of_mem _ hx2))) hst
  | finishJob sem l r j hp =>
    refine ⟨?_, ?_⟩
    · rw [slotCount_mid] at hsem ⊢
      rw [hp] at hsem
      simp [holdsSlot] at hsem ⊢
      omega
    · intro x hx hst
      rcases List.mem_append.mp hx with hx1 | hx1
      · exact hrun x (List.mem_append.mpr (Or.inl hx1)) hst
      · rcases List.mem_cons.mp hx1 with hx2 | hx2
        · rw [hx2] at hst
          have := hrun j (List.mem_append.mpr (Or.inr (List.mem_cons_self _ _))) hst
          rw [hp] at this
          cases this
        · exact hrun x (List.mem_append.mpr (Or.inr (List.mem_cons_of_mem _ hx2))) hst
  | cancelJob sem l r j =>
    refine ⟨?_, ?_⟩
    · rw [slotCount_mid] at hsem ⊢
      exact hsem
    · intro x hx hst
      rcases List.mem_append.mp hx with hx1 | hx1
      · exact hrun x (List.mem_append.mpr (Or.inl hx1)) hst
      · rcases List.mem_cons.mp hx1 with hx2 | hx2
        · rw [hx2] at hst
          cases hst
        · exact hrun x (List.mem_append.mpr (Or.inr (List.mem_cons_of_mem _ hx2))) hst

theorem reach_sysInv {K : ℕ} {s : Sys} (h : Reach K s) : SysInv K s := by
  induction h with
  | refl => exact sysInv_init K
  | tail _ hs ih => exact sysInv_step ih hs

theorem runningCount_le_slotCount (l : List JR)
    (h : ∀ j ∈ l, j.st = JobState.RUNNING → j.ph = Phase.running) :
    runningCount l ≤ slotCount l := by
  induction l with
  | nil => simp [runningCount, slotCount]
  | cons a t ih =>
    have ht : runningCount t ≤ slotCount t :=
      ih (fun j hj => h j (List.mem_cons_of_mem _ hj))
    simp only [runningCount, slotCount, List.countP_cons] at ht ⊢
    by_cases ha : a.st = JobState.RUNNING
    · have hph := h a (List.mem_cons_self _ _) ha
      have hhs : holdsSlot a.ph = true := by rw [hph]; rfl
      simp [ha, hhs]
      omega
    · simp [ha]
      cases hb : holdsSlot a.ph <;> simp [hb] <;> omega

/-- Every activation of the retry loop with at least one attempt left begins
by emitting `on_start`, the backend setting RUNNING, and the attempt ending
at its terminal state. -/
theorem runAttempts_shape (spec : JobSpec) (oc : ℕ → AttemptOutcome)
    (el : ℕ → ℚ) (jb : ℕ → Fin 256) (al idx : ℕ) (j : Job) (h : 1 ≤ al) :
    ∃ rest, (runAttempts spec oc el jb al idx j).1 =
      Ev.onStart :: Ev.stChange JobState.RUNNING ::
        Ev.stChange ((oc (idx + 1)).toState) :: rest := by
  cases al with
  | zero => omega
  | succ n =>
    rw [runAttempts]
    split
    · exact ⟨_, rfl⟩
    · split
      · exact ⟨_, rfl⟩
      · split
        · exact ⟨_, rfl⟩
        · exact ⟨_, rfl⟩

/-- Unfolding of one iteration of the retry loop. -/
theorem runAttempts_step (spec : JobSpec) (oc : ℕ → AttemptOutcome)
    (el : ℕ → ℚ) (jb : ℕ → Fin 256) (al idx : ℕ) (j : Job) :
    runAttempts spec oc el jb (al + 1) idx j =
      (let idx1 := idx + 1
       let o := oc idx1
       let j2 := applyOutcome { j with attempts := idx1, state := JobState.RUNNING } o
       let pre : List Ev :=
         [Ev.onStart, Ev.stChange JobState.RUNNING, Ev.stChange o.toState]
       if j2.state = JobState.SUCCEEDED then
         (pre ++ [Ev.onFinish, Ev.persistEv], j2)
       else if al = 0 then
         (pre ++ [Ev.onFinish, Ev.persistEv], j2)
       else if overLimit spec el idx1 then
         (pre ++ [Ev.onFinish, Ev.persistEv],
           { j2 with error := some ((j2.error.getD "") ++ "\nRuntime limit exceeded") })
       else
         let b := computeBackoff spec.retry idx1 (jb idx1)
         let rest := runAttempts spec oc el jb al idx1 j2
         (pre ++ [Ev.onRetry, Ev.sleepFor b] ++ rest.1, rest.2)) := rfl

/-- When every attempt fails and no runtime ceiling is configured, the loop
uses all of its attempt budget: `al` starts, `al - 1` retries, final state
FAILED, final attempt counter `idx + al`. -/
theorem runAttempts_all_failed (spec : JobSpec) (oc : ℕ → AttemptOutcome)
    (el : ℕ → ℚ) (jb : ℕ → Fin 256) (es : ℕ → Option String)
    (hrl : spec.runtime_limit_seconds = none)
    (hoc : ∀ i, oc i = AttemptOutcome.failed (es i)) :
    ∀ (al idx : ℕ) (j : Job), 1 ≤ al →
      countEv isOnStart (runAttempts spec oc el jb al idx j).1 = al ∧
      countEv isOnRetry (runAttempts spec oc el jb al idx j).1 = al - 1 ∧
      (runAttempts spec oc el jb al idx j).2.state = JobState.FAILED ∧
      (runAttempts spec oc el jb al idx j).2.attempts = idx + al := by
  intro al
  induction al with
  | zero => intro idx j h; omega
  | succ n ih =>
    intro idx j _
    rw [runAttempts_step]
    simp only [hoc, applyOutcome, AttemptOutcome.toState]
    by_cases hn : n = 0
    · simp [hn, countEv, List.countP_append, List.countP_cons,
        isOnStart, isOnRetry]
    · obtain ⟨hs, hr, hst, hat⟩ := ih (idx + 1)
        (applyOutcome { j with attempts := idx + 1, state := JobState.RUNNING }
          (oc (idx + 1)))
        (Nat.one_le_iff_ne_zero.mpr hn)
      simp only [hoc, applyOutcome, countEv] at hs hr hst hat
      refine ⟨?_, ?_, ?_, ?_⟩ <;>
        simp [hn, overLimit, hrl, countEv, List.countP_append, List.countP_cons,
          isOnStart, isOnRetry, hst, hat, hs, hr] <;>
        omega

/-- With a fault somewhere in the handler list, `_emit` stops at the first
fault and propagates it. -/
theorem emitRun_fault (pre suf : List HandlerRes) (msg : String)
    (hpre : ∀ h ∈ pre, h = HandlerRes.ok) :
    emitRun (pre ++ HandlerRes.fault msg :: suf)
      = Except.error (Err.handlerFault msg) := by
  induction pre with
  | nil => rfl
  | cons a t ih =>
    have ha : a = HandlerRes.ok := hpre a (List.mem_cons_self _ _)
    subst ha
    exact ih (fun h hh => hpre h (List.mem_cons_of_mem _ hh))

/-- Serializing a state to its symbolic name and parsing it back is the
identity. -/
theorem stateOfName_stateName (s : JobState) :
    stateOfName (stateName s) = some s := by
  cases s <;> rfl

theorem applyOutcome_state (j : Job) (o : AttemptOutcome) :
    (applyOutcome j o).state = o.toState := by
  cases o <;> rfl

theorem applyOutcome_attempts (j : Job) (o : AttemptOutcome) :
    (applyOutcome j o).attempts = j.attempts := by
  cases o <;> rfl

/-- Every activation of the retry loop with at least one attempt left
invokes `_persist` exactly once, as its final action. -/
theorem runAttempts_persist (spec : JobSpec) (oc : ℕ → AttemptOutcome)
    (el : ℕ → ℚ) (jb : ℕ → Fin 256) :
    ∀ (al idx : ℕ) (j : Job), 1 ≤ al →
      ∃ p, (runAttempts spec oc el jb al idx j).1 = p ++ [Ev.persistEv] ∧
        countEv isPersist (runAttempts spec oc el jb al idx j).1 = 1 := by
  intro al
  induction al with
  | zero => intro idx j h; omega
  | succ n ih =>
    intro idx j _
    rw [runAttempts]
    split
    · refine ⟨[Ev.onStart, Ev.stChange JobState.RUNNING,
          Ev.stChange ((oc (idx + 1)).toState), Ev.onFinish], rfl, ?_⟩
      simp [countEv, List.countP_append, List.countP_cons, isPersist]
    · split
      · refine ⟨[Ev.onStart, Ev.stChange JobState.RUNNING,
            Ev.stChange ((oc (idx + 1)).toState), Ev.onFinish], rfl, ?_⟩
        simp [countEv, List.countP_append, List.countP_cons, isPersist]
      · split
        · refine ⟨[Ev.onStart, Ev.stChange JobState.RUNNING,
              Ev.stChange ((oc (idx + 1)).toState), Ev.onFinish], rfl, ?_⟩
          simp [countEv, List.countP_append, List.countP_cons, isPersist]
        · rename_i hsucc hal hlim
          have hn : 1 ≤ n := Nat.one_le_iff_ne_zero.mpr hal
          obtain ⟨p, hp, hc⟩ := ih (idx + 1)
            (applyOutcome { j with attempts := idx + 1, state := JobState.RUNNING }
              (oc (idx + 1))) hn
          refine ⟨[Ev.onStart, Ev.stChange JobState.RUNNING,
              Ev.stChange ((oc (idx + 1)).toState), Ev.onRetry,
              Ev.sleepFor (computeBackoff spec.retry (idx + 1) (jb (idx + 1)))] ++ p,
            ?_, ?_⟩
          · simp only [List.append_assoc, List.cons_append, List.nil_append]
            rw [hp]
          · simp only [countEv, List.countP_append, List.countP_cons] at hc ⊢
            simp [isPersist, hc]


/-!  ## Claims -/

/-- C1 counterexample: with `max_retries = 1`, when the backend's cancel
ends the first attempt as CANCELLED, the trace of the retry loop re-enters
RUNNING after the CANCELLED state change and a second `on_start` fires —
refuting that cancellation bypasses the retry loop and forbids further
attempts.  (Index 2 of the trace is the CANCELLED change, index 6 a later
RUNNING change.) -/
theorem cancel_bypass_counterexample :
    ¬ cancelBypassesRetries
        (executeWithRetries specC1 ocCancelThenFail zr zb (jobFix specC1)).1 ∧
    countEv isOnStart
        (executeWithRetries specC1 ocCancelThenFail zr zb (jobFix specC1)).1 = 2 := by
  constructor
  · intro h
    exact (h 2 6 (by omega) (by decide)) (by decide)
  · decide

/-- C1 (amended): the backend's cancel makes the current attempt end with
state CANCELLED; when that attempt was the last of the budget, the final
state is CANCELLED and no further attempt starts — but when retry attempts
remain (and no runtime ceiling is configured) the retry loop treats the
cancelled attempt like a failed one: it emits `on_retry`, sleeps the backoff
and starts another attempt, re-entering RUNNING. -/
theorem cancel_cancelled_attempt_is_retried :
    (∀ (spec : JobSpec) (oc : ℕ → AttemptOutcome) (el : ℕ → ℚ)
        (jb : ℕ → Fin 256) (j : Job),
      spec.retry.max_retries = 0 → oc 1 = AttemptOutcome.cancelled →
      (executeWithRetries spec oc el jb j).2.state = JobState.CANCELLED ∧
      countEv isOnStart (executeWithRetries spec oc el jb j).1 = 1) ∧
    (∀ (spec : JobSpec) (oc : ℕ → AttemptOutcome) (el : ℕ → ℚ)
        (jb : ℕ → Fin 256) (j : Job),
      1 ≤ spec.retry.max_retries → spec.runtime_limit_seconds = none →
      oc 1 = AttemptOutcome.cancelled →
      ∃ rest, (executeWithRetries spec oc el jb j).1 =
        Ev.onStart :: Ev.stChange JobState.RUNNING ::
        Ev.stChange JobState.CANCELLED :: Ev.onRetry ::
        Ev.sleepFor (computeBackoff spec.retry 1 (jb 1)) ::
        Ev.onStart :: Ev.stChange JobState.RUNNING :: rest) := by
  constructor
  · intro spec oc el jb j h0 hc
    rw [executeWithRetries, h0]
    have e : (1 : ℕ) + 0 = 0 + 1 := rfl
    rw [e, runAttempts_step]
    simp [hc, applyOutcome, AttemptOutcome.toState, countEv,
      List.countP_append, List.countP_cons, isOnStart]
  · intro spec oc el jb j h1 hrl hc
    obtain ⟨k, hk⟩ := Nat.exists_eq_add_of_le h1
    rw [executeWithRetries, hk]
    have e : (1 : ℕ) + (1 + k) = (1 + k) + 1 := by omega
    rw [e, runAttempts_step]
    simp only [Nat.zero_add, applyOutcome_state, hc, AttemptOutcome.toState]
    have hne : ¬ (JobState.CANCELLED = JobState.SUCCEEDED) := by decide
    rw [if_neg hne, if_neg (by omega : ¬ (1 + k = 0)),
      if_neg (by simp [overLimit, hrl] : ¬ (overLimit spec el 1 = true))]
    obtain ⟨w, hw⟩ := runAttempts_shape spec oc el jb (1 + k) 1
      (applyOutcome { j with attempts := 1, state := JobState.RUNNING } (oc 1))
      (by omega)
    rw [hc] at hw
    refine ⟨Ev.stChange ((oc (1 + 1)).toState) :: w, ?_⟩
    simp only [List.cons_append, List.nil_append, hw]

/-- C7: a job whose retry policy has `max_retries = 2` (and no total runtime
ceiling) and whose backend fails every attempt performs exactly 3 attempts,
emits `on_retry` exactly twice, and ends FAILED with its attempts counter
equal to 3. -/
theorem claim_retry_exhaustion (spec : JobSpec) (oc : ℕ → AttemptOutcome)
    (el : ℕ → ℚ) (jb : ℕ → Fin 256) (j : Job) (es : ℕ → Option String)
    (hmr : spec.retry.max_retries = 2)
    (hrl : spec.runtime_limit_seconds = none)
    (hoc : ∀ i, oc i = AttemptOutcome.failed (es i)) :
    countEv isOnStart (executeWithRetries spec oc el jb j).1 = 3 ∧
    countEv isOnRetry (executeWithRetries spec oc el jb j).1 = 2 ∧
    (executeWithRetries spec oc el jb j).2.state = JobState.FAILED ∧
    (executeWithRetries spec oc el jb j).2.attempts = 3 := by
  have h := runAttempts_all_failed spec oc el jb es hrl hoc
    (1 + spec.retry.max_retries) 0 j (by omega)
  rw [executeWithRetries]
  rw [hmr] at h ⊢
  norm_num at h ⊢
  exact h

/-- C7 witness: the concrete always-failing run with `max_retries = 2`. -/
theorem claim_retry_exhaustion_witness :
    countEv isOnStart (executeWithRetries specMR2 ocFail zr zb (jobFix specMR2)).1 = 3 ∧
    countEv isOnRetry (executeWithRetries specMR2 ocFail zr zb (jobFix specMR2)).1 = 2 ∧
    (executeWithRetries specMR2 ocFail zr zb (jobFix specMR2)).2.state = JobState.FAILED ∧
    (executeWithRetries specMR2 ocFail zr zb (jobFix specMR2)).2.attempts = 3 :=
  claim_retry_exhaustion specMR2 ocFail zr zb (jobFix specMR2) (fun _ => none)
    rfl rfl (fun _ => rfl)

/-- C1 witness: the amended statement at concrete runs (a lone cancelled
attempt stays CANCELLED; with one retry left the cancelled attempt is
re-run). -/
theorem cancel_cancelled_attempt_is_retried_witness :
    ((executeWithRetries spec0 ocCancelThenFail zr zb (jobFix spec0)).2.state
        = JobState.CANCELLED ∧
     countEv isOnStart
        (executeWithRetries spec0 ocCancelThenFail zr zb (jobFix spec0)).1 = 1) ∧
    (∃ rest, (executeWithRetries specC1 ocCancelThenFail zr zb (jobFix specC1)).1 =
        Ev.onStart :: Ev.stChange JobState.RUNNING ::
        Ev.stChange JobState.CANCELLED :: Ev.onRetry ::
        Ev.sleepFor (computeBackoff specC1.retry 1 (zb 1)) ::
        Ev.onStart :: Ev.stChange JobState.RUNNING :: rest) :=
  ⟨cancel_cancelled_attempt_is_retried.1 spec0 ocCancelThenFail zr zb
      (jobFix spec0) rfl rfl,
   cancel_cancelled_attempt_is_retried.2 specC1 ocCancelThenFail zr zb
      (jobFix specC1) (by decide) rfl rfl⟩

/-- C8 counterexample: with `backoff_seconds = 2`, `jitter_seconds = 1` and
the random byte 255, the computed backoff before attempt 2 equals
`2^1 + 1 = 3`, which does not lie in the half-open interval
`[2^1, 2^1 + 1)` claimed by the spec. -/
theorem backoff_halfopen_counterexample :
    ¬ (pJit.backoff_seconds ^ 1 ≤ computeBackoff pJit 1 255 ∧
       computeBackoff pJit 1 255 < pJit.backoff_seconds ^ 1 + pJit.jitter_seconds) := by
  intro h
  have h2 := h.2
  have hv : (255 : Fin 256).val = 255 := rfl
  norm_num [computeBackoff, pJit, hv] at h2

/-- C8 (amended): the backoff before attempt `i+1` equals
`backoff_seconds ^ i` plus the sampled jitter `(b/255) * jitter_seconds`
(omitted when `jitter_seconds = 0`), and for nonnegative jitter it lies in
the closed interval `[backoff_seconds ^ i, backoff_seconds ^ i +
jitter_seconds]` — the upper endpoint is attained at byte 255. -/
theorem backoff_closed_interval (p : RetryPolicy) (i : ℕ) (b : Fin 256)
    (hj : 0 ≤ p.jitter_seconds) :
    p.backoff_seconds ^ i ≤ computeBackoff p i b ∧
    computeBackoff p i b ≤ p.backoff_seconds ^ i + p.jitter_seconds := by
  unfold computeBackoff
  by_cases h : p.jitter_seconds = 0
  · simp [h]
  · simp only [h, ne_eq, not_false_eq_true, if_true]
    constructor
    · have hnn : 0 ≤ ((b.val : ℚ) / 255) * p.jitter_seconds :=
        mul_nonneg (by positivity) hj
      linarith
    · have hb : (b.val : ℚ) ≤ 255 := by
        have hlt := b.isLt
        exact_mod_cast Nat.lt_succ_iff.mp hlt
      have hle : ((b.val : ℚ) / 255) * p.jitter_seconds ≤ 1 * p.jitter_seconds := by
        apply mul_le_mul_of_nonneg_right _ hj
        rw [div_le_one (by norm_num : (0:ℚ) < 255)]
        exact hb
      linarith

/-- C8 witness: the amended bounds at the concrete policy with base 2 and
jitter 1, attempt index 1, byte 0. -/
theorem backoff_closed_interval_witness :
    pJit.backoff_seconds ^ 1 ≤ computeBackoff pJit 1 0 ∧
    computeBackoff pJit 1 0 ≤ pJit.backoff_seconds ^ 1 + pJit.jitter_seconds :=
  backoff_closed_interval pJit 1 0 (by norm_num [pJit])

/-- C4 counterexample: on a per-attempt timeout the subprocess backend's
waiter performs `kill` as its only process-control action — it never sends a
graceful termination signal first, refuting the claimed TERM → grace → kill
sequence for timeouts. -/
theorem timeout_graceful_counterexample :
    ¬ ((waitAndFinalize specT (jobFix specT) 0 WaitResult.timedOut).2.head?
        = some ProcAction.sendTerm) ∧
    ProcAction.sendTerm ∉ (waitAndFinalize specT (jobFix specT) 0 WaitResult.timedOut).2 := by
  decide

/-- C4 (amended): on a per-attempt timeout the subprocess backend records
the timeout error, marks the attempt FAILED, and immediately force-kills the
child (its only action is `kill`, with no graceful signal and no grace
period); the graceful TERM → bounded grace → kill sequence is what explicit
`cancel` performs on a live process that ignores TERM. -/
theorem timeout_kills_without_grace (spec : JobSpec) (j : Job) (now : ℚ) :
    (waitAndFinalize spec j now WaitResult.timedOut).1.state = JobState.FAILED ∧
    (waitAndFinalize spec j now WaitResult.timedOut).1.error
        = some (timeoutMsg spec.timeout_seconds) ∧
    (waitAndFinalize spec j now WaitResult.timedOut).2 = [ProcAction.kill] ∧
    (localCancel true false j now).2
        = [ProcAction.sendTerm, ProcAction.waitGrace 5, ProcAction.kill] :=
  ⟨rfl, rfl, rfl, rfl⟩

/-- C2 counterexample: submitting the default spec — neither `cmd` nor
`callable` set — raises nothing: it returns a job id and a Job is created
(the job table and the pending queue both grow); likewise for a spec with
both set.  This refutes the claimed synchronous validation error. -/
theorem submit_no_validation_counterexample :
    isOkE (submit m0 spec0 0 0 0 [] true).2.2 = true ∧
    (submit m0 spec0 0 0 0 [] true).1.jobs.length = 1 ∧
    (submit m0 spec0 0 0 0 [] true).1.queue = [newJobId spec0 0 0 0] ∧
    isOkE (submit m0 specBoth 0 0 0 [] true).2.2 = true ∧
    (submit m0 specBoth 0 0 0 [] true).1.jobs.length = 1 :=
  ⟨rfl, rfl, rfl, rfl, rfl⟩

/-- C2 (amended): `submit` performs no validation of `cmd`/`callable`: for
every spec — including those with neither or both set — it creates a Job,
appends it to the table, enqueues its id and returns the id (with no
registered `on_submit` handler and a succeeding snapshot write; a missing
`cmd` is only caught by a backend assertion when an attempt is dispatched). -/
theorem submit_always_creates_job (m : MState) (spec : JobSpec)
    (ts pid : ℕ) (now : ℚ) :
    (submit m spec ts pid now [] true).2.2
        = Except.ok (newJobId spec ts pid m.jobs.length) ∧
    (submit m spec ts pid now [] true).1.jobs
        = m.jobs ++ [(newJobId spec ts pid m.jobs.length,
            initJob (newJobId spec ts pid m.jobs.length) spec now)] ∧
    (submit m spec ts pid now [] true).1.queue
        = m.queue ++ [newJobId spec ts pid m.jobs.length] := by
  cases hp : m.persistPath <;>
    simp [submit, emitRun, persistFn, hp]

/-- C3 counterexample: a raising `on_submit` handler propagates out of
`submit`: the call ends with the handler's error instead of completing, and
the Job — already inserted in the table — is never enqueued, so the job's
own execution does not continue unaffected. -/
theorem handler_fault_propagates_counterexample :
    (submit m0 spec0 0 0 0 [HandlerRes.fault "boom"] true).2.2
        = Except.error (Err.handlerFault "boom") ∧
    (submit m0 spec0 0 0 0 [HandlerRes.fault "boom"] true).1.jobs.length = 1 ∧
    (submit m0 spec0 0 0 0 [HandlerRes.fault "boom"] true).1.queue = [] :=
  ⟨rfl, rfl, rfl⟩

/-- C3 (amended): `_emit` runs handlers in order with no try/except, so the
first raising handler propagates its fault out of the emitting operation:
`submit` ends with that error, with the Job already added to the table but
never enqueued. -/
theorem handler_fault_aborts_operation (m : MState) (spec : JobSpec)
    (ts pid : ℕ) (now : ℚ) (pre suf : List HandlerRes) (msg : String)
    (writeOk : Bool) (hpre : ∀ h ∈ pre, h = HandlerRes.ok) :
    (submit m spec ts pid now (pre ++ HandlerRes.fault msg :: suf) writeOk).2.2
        = Except.error (Err.handlerFault msg) ∧
    (submit m spec ts pid now (pre ++ HandlerRes.fault msg :: suf) writeOk).1.jobs
        = m.jobs ++ [(newJobId spec ts pid m.jobs.length,
            initJob (newJobId spec ts pid m.jobs.length) spec now)] ∧
    (submit m spec ts pid now (pre ++ HandlerRes.fault msg :: suf) writeOk).1.queue
        = m.queue := by
  have he := emitRun_fault pre suf msg hpre
  simp [submit, he]

/-- C3 witness: the amended statement at a single faulting handler. -/
theorem handler_fault_aborts_operation_witness :
    (submit m0 spec0 0 0 0 [HandlerRes.fault "boom"] true).2.2
        = Except.error (Err.handlerFault "boom") ∧
    (submit m0 spec0 0 0 0 [HandlerRes.fault "boom"] true).1.jobs
        = m0.jobs ++ [(newJobId spec0 0 0 m0.jobs.length,
            initJob (newJobId spec0 0 0 m0.jobs.length) spec0 0)] ∧
    (submit m0 spec0 0 0 0 [HandlerRes.fault "boom"] true).1.queue = m0.queue :=
  handler_fault_aborts_operation m0 spec0 0 0 0 [] [] "boom" true
    (fun h hh => by cases hh)

/-- C5 counterexample: with a snapshot path configured and the write
failing, `submit` does not complete normally — the persistence failure
propagates out as an error, refuting that write failures are logged and
never raise. -/
theorem persist_failure_raises_counterexample :
    (submit mP spec0 0 0 0 [] false).2.2 = Except.error Err.persistFailed := rfl

/-- C5 (amended): `_persist` is a no-op when no snapshot path is configured,
but it has no try/except: when a path is configured and the write fails, the
failure propagates out of `_persist`, so `submit` and `cancel` end with the
persistence error instead of completing normally. -/
theorem persist_noop_or_raises :
    (∀ w : Bool, persistFn none w = Except.ok ()) ∧
    (∀ (m : MState) (spec : JobSpec) (ts pid : ℕ) (now : ℚ) (p : String),
      m.persistPath = some p →
      (submit m spec ts pid now [] false).2.2 = Except.error Err.persistFailed) ∧
    (∀ (m : MState) (jid : String) (now : ℚ) (j : Job) (p : String),
      m.persistPath = some p → findJob m.jobs jid = some j →
      (cancel m jid now [] false).2.2 = Except.error Err.persistFailed) := by
  refine ⟨fun w => rfl, ?_, ?_⟩
  · intro m spec ts pid now p hp
    simp [submit, emitRun, persistFn, hp]
  · intro m jid now j p hp hf
    simp [cancel, hf, emitRun, persistFn, hp]

/-- C5 witness: the amended statement at concrete states — no path
configured, a failing write under `submit`, and a failing write under
`cancel` of a tracked job. -/
theorem persist_noop_or_raises_witness :
    persistFn none true = Except.ok () ∧
    (submit mP spec0 0 0 0 [] false).2.2 = Except.error Err.persistFailed ∧
    (cancel mPJ "j" 0 [] false).2.2 = Except.error Err.persistFailed :=
  ⟨persist_noop_or_raises.1 true,
   persist_noop_or_raises.2.1 mP spec0 0 0 0 "state.json" rfl,
   persist_noop_or_raises.2.2 mPJ "j" 0 jobJ "state.json" rfl rfl⟩

/-- C6 counterexample: in a run whose single attempt fails, the trace is
`on_start`, a transition to RUNNING, a transition to FAILED, `on_finish`,
persist — the transition to RUNNING is not followed by any snapshot write
before the next transition, refuting "a snapshot after every state-affecting
operation, including entering RUNNING". -/
theorem persist_every_transition_counterexample :
    ¬ persistsAfterEveryTransition
        (executeWithRetries spec0 ocFail zr zb (jobFix spec0)).1 := by
  intro h
  obtain ⟨n, hn1, hn2, _⟩ := h 1 2 (by omega) (by decide) (by decide)
  omega

/-- C6 (amended): the retry loop writes the snapshot exactly once, as the
final action of the job's run, when the job reaches its terminal outcome —
not after entering RUNNING and not at each retry (`submit` and `cancel` also
persist, see their definitions); and reloading a written snapshot recovers
the job count and every job's state exactly (states are serialized by
symbolic name and parse back losslessly). -/
theorem persist_at_terminal_and_snapshot_roundtrip :
    (∀ (spec : JobSpec) (oc : ℕ → AttemptOutcome) (el : ℕ → ℚ)
        (jb : ℕ → Fin 256) (j : Job),
      ∃ p, (executeWithRetries spec oc el jb j).1 = p ++ [Ev.persistEv] ∧
        countEv isPersist (executeWithRetries spec oc el jb j).1 = 1) ∧
    (∀ tbl : List (String × Job),
      (snapshotOf tbl).length = tbl.length ∧
      (snapshotOf tbl).map (fun q => (q.1, stateOfName q.2.state))
        = tbl.map (fun q => (q.1, some q.2.state))) := by
  constructor
  · intro spec oc el jb j
    exact runAttempts_persist spec oc el jb (1 + spec.retry.max_retries) 0 j
      (by omega)
  · intro tbl
    refine ⟨by simp [snapshotOf], ?_⟩
    induction tbl with
    | nil => rfl
    | cons a t ih =>
      simp only [snapshotOf, List.map_cons] at ih ⊢
      rw [ih]
      simp [jobToDict, stateOfName_stateName]

/-- C9: with `max_concurrent = K` free slots initially, every reachable
state of the interleaved dispatch / retry-loop / cancellation system has at
most K jobs in RUNNING state.  In the step relation, a slot is acquired by
`dispatch` before the job's first attempt, kept through `retryJob`/`backoff`
(no release between attempts), and released only by the terminal
`finishJob`. -/
theorem admission_running_bound (K : ℕ) (s : Sys) (h : Reach K s) :
    runningCount s.jobs ≤ K := by
  obtain ⟨hsem, hrun⟩ := reach_sysInv h
  have h1 := runningCount_le_slotCount s.jobs hrun
  omega

/-- C9 witness: capacity 1, one submitted job dispatched and running. -/
theorem admission_running_bound_witness :
    runningCount (Sys.mk 0 [JR.mk JobState.RUNNING Phase.running]).jobs ≤ 1 :=
  admission_running_bound 1 (Sys.mk 0 [JR.mk JobState.RUNNING Phase.running])
    (Reach.tail
      (Reach.tail
        (Reach.tail Reach.refl (Step.submitJob 1 []))
        (Step.dispatch 0 [] [] (JR.mk JobState.PENDING Phase.queued) rfl))
      (Step.startAttempt 0 [] [] (JR.mk JobState.PENDING Phase.dispatched)
        (Or.inl rfl)))

/-- C10: cancelling a job that is still PENDING (never dispatched) raises
nothing — the backend unconditionally marks it CANCELLED and `on_cancel` is
emitted — but the job id is left in the pending queue, so a later `_run_loop`
iteration still dispatches it, and the retry loop's first attempt puts the
job back into RUNNING and executes it. -/
theorem cancel_pending_job_still_dispatched (spec : JobSpec) (ts pid : ℕ)
    (now now2 : ℚ) (oc : ℕ → AttemptOutcome) (el : ℕ → ℚ) (jb : ℕ → Fin 256) :
    (cancel (submit (MState.mk [] [] none) spec ts pid now [] true).1
        (newJobId spec ts pid 0) now2 [] true).2.2 = Except.ok () ∧
    (cancel (submit (MState.mk [] [] none) spec ts pid now [] true).1
        (newJobId spec ts pid 0) now2 [] true).2.1 = [Ev.onCancel] ∧
    findJob (cancel (submit (MState.mk [] [] none) spec ts pid now [] true).1
          (newJobId spec ts pid 0) now2 [] true).1.jobs (newJobId spec ts pid 0)
        = some (backendCancelJob (initJob (newJobId spec ts pid 0) spec now) now2) ∧
    (cancel (submit (MState.mk [] [] none) spec ts pid now [] true).1
        (newJobId spec ts pid 0) now2 [] true).1.queue = [newJobId spec ts pid 0] ∧
    (runLoopIter (cancel (submit (MState.mk [] [] none) spec ts pid now [] true).1
        (newJobId spec ts pid 0) now2 [] true).1).2 = some (newJobId spec ts pid 0) ∧
    (∃ rest, (executeWithRetries spec oc el jb
        (backendCancelJob (initJob (newJobId spec ts pid 0) spec now) now2)).1
      = Ev.onStart :: Ev.stChange JobState.RUNNING :: rest) := by
  refine ⟨?_, ?_, ?_, ?_, ?_, ?_⟩
  · simp [submit, cancel, emitRun, persistFn, findJob, updateJob, initJob]
  · simp [submit, cancel, emitRun, persistFn, findJob, updateJob, initJob]
  · simp [submit, cancel, emitRun, persistFn, findJob, updateJob,
      backendCancelJob, initJob]
  · simp [submit, cancel, emitRun, persistFn, findJob, updateJob, initJob]
  · simp [submit, cancel, emitRun, persistFn, findJob, updateJob, runLoopIter,
      initJob]
  · obtain ⟨w, hw⟩ := runAttempts_shape spec oc el jb
      (1 + spec.retry.max_retries) 0
      (backendCancelJob (initJob (newJobId spec ts pid 0) spec now) now2)
      (by omega)
    exact ⟨Ev.stChange ((oc (0 + 1)).toState) :: w, hw⟩
